/-
Verification of the DbTool chunked dump/restore engine (src/dbtool).

The Python source is shallowly embedded: byte strings (Python `bytes`)
become `List Nat` (each element a byte value), pure functions become
Lean functions, and the effectful pipelines (`dump_table`,
`restore_table`, `_write_manifest`) become functions producing explicit
traces of the I/O operations they perform.
-/
import Mathlib

namespace DbTool

/-! ## Byte-string helpers -/

/-- UTF-8 encoding of a single code point (mirrors how Python `str.encode("utf-8")`
lays out one character). -/
def encChar (n : Nat) : List Nat :=
  if n < 128 then [n]
  else if n < 2048 then [192 + n / 64, 128 + n % 64]
  else if n < 65536 then [224 + n / 4096, 128 + (n / 64) % 64, 128 + n % 64]
  else [240 + n / 262144, 128 + (n / 4096) % 64, 128 + (n / 64) % 64, 128 + n % 64]

/-- The bytes of a Lean string literal, UTF-8 encoded (Python `s.encode("utf-8")`). -/
def strBytes (s : String) : List Nat :=
  s.data.flatMap (fun c => encChar c.toNat)

/-- Python `bytes.replace(pat, rep)` for a two-byte pattern `[a, b]`:
non-overlapping occurrences are replaced left to right. -/
def replace2 (a b : Nat) (r : List Nat) : List Nat → List Nat
  | [] => []
  | [x] => [x]
  | x :: y :: rest =>
    if x = a ∧ y = b then r ++ replace2 a b r rest
    else x :: replace2 a b r (y :: rest)

/-- Python `bytes.replace(pat, rep)` for a one-byte pattern `[a]`. -/
def replace1 (a : Nat) (r : List Nat) : List Nat → List Nat
  | [] => []
  | x :: rest => (if x = a then r else [x]) ++ replace1 a r rest

/-! ## PostgreSQL COPY text escaping (spec side)

The spec (§4.3) fixes the encoding of a field in COPY text output: the
characters backslash, newline, carriage return and tab are escaped as
`\\`, `\n`, `\r`, `\t`; every other byte is passed through. -/

/-- COPY text escaping of one byte, per the spec's description of the format. -/
def copyEscapeByte (b : Nat) : List Nat :=
  if b = 92 then [92, 92]
  else if b = 10 then [92, 110]
  else if b = 13 then [92, 114]
  else if b = 9 then [92, 116]
  else [b]

/-- COPY text escaping of a whole field value. -/
def copyEscape (v : List Nat) : List Nat :=
  v.flatMap copyEscapeByte

/-! ## The source's field decoder (`_copy_to_inserts`, dump.py 304–311)

```python
s = f.replace(b"\\\\", b"\x00") \
     .replace(b"\\n", b"\n") \
     .replace(b"\\r", b"\r") \
     .replace(b"\\t", b"\t") \
     .replace(b"\x00", b"\\")
```
-/

/-- The chained `bytes.replace` calls of dump.py lines 304–308, in source order:
`\\` → NUL (sentinel), `\n` → LF, `\r` → CR, `\t` → TAB, NUL → `\`. -/
def unescapeField (f : List Nat) : List Nat :=
  replace1 0 [92]
    (replace2 92 116 [9]
      (replace2 92 114 [13]
        (replace2 92 110 [10]
          (replace2 92 92 [0] f))))

/-! ## UTF-8 decode with replacement (dump.py line 309)

`s.decode("utf-8", errors="replace")` followed by the eventual
`.encode("utf-8")` of the assembled script (dump.py line 279) acts on the
bytes of a field as: well-formed UTF-8 sequences pass through unchanged,
and each maximal ill-formed subpart is replaced by U+FFFD
(bytes `EF BF BD`). `utf8Fix` is that byte transformation. -/

/-- A UTF-8 continuation byte. -/
def isCont (b : Nat) : Bool := 128 ≤ b && b ≤ 191

/-- Valid second byte for a three-byte sequence with lead `b`. -/
def cont3 (b c : Nat) : Bool :=
  (b = 224 && 160 ≤ c && c ≤ 191) ||
  (225 ≤ b && b ≤ 236 && isCont c) ||
  (b = 237 && 128 ≤ c && c ≤ 159) ||
  (238 ≤ b && b ≤ 239 && isCont c)

/-- Valid second byte for a four-byte sequence with lead `b`. -/
def cont4 (b c : Nat) : Bool :=
  (b = 240 && 144 ≤ c && c ≤ 191) ||
  (241 ≤ b && b ≤ 243 && isCont c) ||
  (b = 244 && 128 ≤ c && c ≤ 143)

/-- The UTF-8 bytes of U+FFFD, the replacement character. -/
def fffd : List Nat := [239, 191, 189]

/-- Decode-then-reencode of a byte string as UTF-8 with `errors="replace"`:
identity on well-formed sequences, one U+FFFD per maximal ill-formed subpart. -/
def utf8Fix : List Nat → List Nat
  | [] => []
  | b :: rest =>
    if b ≤ 127 then b :: utf8Fix rest
    else if 194 ≤ b ∧ b ≤ 223 then
      match rest with
      | [] => fffd
      | c :: rest2 =>
        if isCont c then b :: c :: utf8Fix rest2
        else fffd ++ utf8Fix (c :: rest2)
    else if 224 ≤ b ∧ b ≤ 239 then
      match rest with
      | [] => fffd
      | c :: rest2 =>
        if cont3 b c then
          match rest2 with
          | [] => fffd
          | d :: rest3 =>
            if isCont d then b :: c :: d :: utf8Fix rest3
            else fffd ++ utf8Fix (d :: rest3)
        else fffd ++ utf8Fix (c :: rest2)
    else if 240 ≤ b ∧ b ≤ 244 then
      match rest with
      | [] => fffd
      | c :: rest2 =>
        if cont4 b c then
          match rest2 with
          | [] => fffd
          | d :: rest3 =>
            if isCont d then
              match rest3 with
              | [] => fffd
              | e :: rest4 =>
                if isCont e then b :: c :: d :: e :: utf8Fix rest4
                else fffd ++ utf8Fix (e :: rest4)
            else fffd ++ utf8Fix (d :: rest3)
        else fffd ++ utf8Fix (c :: rest2)
    else fffd ++ utf8Fix rest

/-- A byte string is valid UTF-8 exactly when replacement decoding followed by
re-encoding leaves it unchanged. -/
def Utf8Valid (l : List Nat) : Prop := utf8Fix l = l

instance (l : List Nat) : Decidable (Utf8Valid l) := by
  unfold Utf8Valid; infer_instance

/-! ## Field conversion (`_copy_to_inserts`, dump.py 300–311) -/

/-- One field of a COPY record converted to a SQL value, at the byte level
(dump.py lines 300–311): the literal two-byte field `\N` becomes `NULL`;
otherwise the copy escapes are reversed, the bytes pass through the
UTF-8 replacement decode, embedded single quotes are doubled, and the
result is wrapped in single quotes. -/
def convertField (f : List Nat) : List Nat :=
  if f = [92, 78] then strBytes "NULL"
  else [39] ++ replace1 39 [39, 39] (utf8Fix (unescapeField f)) ++ [39]

/-- Spec-side parser of a single-quoted SQL string literal with doubled
embedded quotes (standard conforming strings: backslash is not special).
Returns the field value the literal denotes, or `none` if the bytes are
not such a literal. -/
def parseSqlLiteral (l : List Nat) : Option (List Nat) :=
  match l with
  | 39 :: rest =>
    if rest.getLast? = some 39 then some (replace2 39 39 [39] rest.dropLast)
    else none
  | _ => none

/-! ## Record splitting and batching (`_copy_to_inserts`, dump.py 290–322) -/

/-- Python `bytes.split(sep)` for a one-byte separator: always returns one
more part than there are separators. -/
def splitByte (sep : Nat) : List Nat → List (List Nat)
  | [] => [[]]
  | b :: rest =>
    match splitByte sep rest with
    | [] => [[b]]
    | h :: t => if b = sep then [] :: h :: t else (b :: h) :: t

/-- dump.py 290–292: split the raw COPY buffer at `\n` and drop a single
trailing empty record. -/
def splitRecords (raw : List Nat) : List (List Nat) :=
  let lines := splitByte 10 raw
  if lines.getLast? = some [] then lines.dropLast else lines

/-- The batching loop of dump.py 297–320: rows are accumulated into `batch`,
which is flushed into the output whenever it reaches `batchSize` rows,
and a final partial batch is flushed at the end. -/
def batchLoop (batchSize : Nat) : List α → List α → List (List α)
  | [], batch => if batch.isEmpty then [] else [batch]
  | r :: rest, batch =>
    let batch' := batch ++ [r]
    if batchSize ≤ batch'.length then batch' :: batchLoop batchSize rest []
    else batchLoop batchSize rest batch'

/-- The batches of rows that `_copy_to_inserts` turns into one `INSERT`
statement each. -/
def insertBatches (batchSize : Nat) (rows : List α) : List (List α) :=
  batchLoop batchSize rows []

/-- Python `", ".join`/`",\n".join`-style interleaving at the byte level. -/
def joinBytes (sep : List Nat) : List (List Nat) → List Nat
  | [] => []
  | [x] => x
  | x :: y :: t => x ++ sep ++ joinBytes sep (y :: t)

/-- One COPY record rendered as a parenthesised SQL value tuple
(dump.py 297–313): the record is split at `\t`, each field converted, and
the values joined with `", "` inside `"  (" … ")"`. -/
def rowTuple (line : List Nat) : List Nat :=
  strBytes "  (" ++ joinBytes (strBytes ", ") ((splitByte 9 line).map convertField)
    ++ strBytes ")"

/-- The `INSERT INTO "T" (cols…) VALUES` header line (dump.py 287–288). -/
def insertHeader (tableName : List Nat) (columns : List (List Nat)) : List Nat :=
  strBytes "INSERT INTO \x22" ++ tableName ++ strBytes "\x22 (" ++
    joinBytes (strBytes ", ") (columns.map (fun c => strBytes "\x22" ++ c ++ strBytes "\x22")) ++
    strBytes ") VALUES"

/-- One batched `INSERT` statement (dump.py 316, 320). -/
def insertStatement (tableName : List Nat) (columns : List (List Nat))
    (batch : List (List Nat)) : List Nat :=
  insertHeader tableName columns ++ [10] ++ joinBytes (strBytes ",\n") batch
    ++ strBytes ";"

/-- `_copy_to_inserts` (dump.py 282–322) at the byte level: the raw COPY
buffer becomes batched multi-row `INSERT` statements joined by blank lines;
an empty buffer yields the empty string. -/
def copyToInserts (raw : List Nat) (tableName : List Nat)
    (columns : List (List Nat)) (batchSize : Nat) : List Nat :=
  if raw = [] then []
  else
    joinBytes (strBytes "\n\n")
      ((insertBatches batchSize ((splitRecords raw).map rowTuple)).map
        (insertStatement tableName columns))

/-! ## Settings (config.py, `DumpSettings`) -/

/-- The flat settings bag of config.py (`DumpSettings`), restricted to the
fields the dump/restore engine reads. -/
structure DumpSettings where
  chunkRows : Nat
  compress : Bool
  dumpMode : String
  dumpSchema : Bool
  insertBatchSize : Nat
  useTransactions : Bool
  truncateBeforeRestore : Bool
  dropOnRestore : Bool
  recreateSchema : Bool
  disableIndexesOnRestore : Bool
  maxRetries : Nat
  retryBackoff : Nat
deriving DecidableEq, Repr

/-! ## SQL chunk assembly (`_build_sql_chunk`, dump.py 206–279) -/

/-- Python truthiness of the optional `schema_ddl` string: present and
non-empty (dump.py 238, 242 test `schema_ddl` itself, not just `is not None`). -/
def ddlTruthy : Option (List Nat) → Bool
  | none => false
  | some d => d ≠ []

/-- `DROP TABLE IF EXISTS "T" CASCADE;` (dump.py 235). -/
def dropTableStmt (t : List Nat) : List Nat :=
  strBytes "DROP TABLE IF EXISTS \x22" ++ t ++ strBytes "\x22 CASCADE;"

/-- `TRUNCATE TABLE "T" CASCADE;` (dump.py 249). -/
def truncateStmt (t : List Nat) : List Nat :=
  strBytes "TRUNCATE TABLE \x22" ++ t ++ strBytes "\x22 CASCADE;"

/-- `DROP INDEX IF EXISTS "idx";` (dump.py 255). -/
def dropIndexStmt (idxName : List Nat) : List Nat :=
  strBytes "DROP INDEX IF EXISTS \x22" ++ idxName ++ strBytes "\x22;"

/-- The `parts` list assembled by `_build_sql_chunk` (dump.py 206–279); the
file contents are these parts joined by newlines.  `now` stands for the
`datetime.now().isoformat()` timestamp; `indexDefs` is the list of
`(name, definition)` pairs of the non-PK indexes. -/
def buildSqlChunkParts (copyData : List Nat) (tableName : List Nat)
    (columns : List (List Nat)) (s : DumpSettings) (schemaDdl : Option (List Nat))
    (indexDefs : List (List Nat × List Nat)) (now : List Nat)
    (isFirst isLast : Bool) : List (List Nat) :=
  ([strBytes "-- dbtool dump: " ++ tableName, strBytes "-- generated: " ++ now] ++
   (if isFirst then [strBytes "-- chunk: 0 (first — includes preamble)"] else []) ++
   (if isLast then [strBytes "-- chunk: last (includes epilogue)"] else []) ++
   [[]]) ++
  (if isFirst then
    (if s.dropOnRestore then [dropTableStmt tableName, []] else []) ++
    (if s.recreateSchema ∧ ddlTruthy schemaDdl then
      [strBytes "-- schema", schemaDdl.getD [], []]
     else if s.dropOnRestore ∧ ddlTruthy schemaDdl then
      [strBytes "-- schema (required after DROP)", schemaDdl.getD [], []]
     else []) ++
    (if s.truncateBeforeRestore ∧ ¬ s.dropOnRestore then [truncateStmt tableName, []] else []) ++
    (if s.disableIndexesOnRestore ∧ indexDefs ≠ [] then
      strBytes "-- drop indexes for faster bulk load" ::
        indexDefs.map (fun p => dropIndexStmt p.1) ++ [[]]
     else [])
   else []) ++
  (if s.useTransactions then [strBytes "BEGIN;", []] else []) ++
  [copyToInserts copyData tableName columns s.insertBatchSize] ++
  (if s.useTransactions then [strBytes "COMMIT;", []] else []) ++
  (if isLast ∧ s.disableIndexesOnRestore ∧ indexDefs ≠ [] then
    strBytes "-- rebuild indexes" ::
      indexDefs.map (fun p => p.2 ++ strBytes ";") ++ [[]]
   else [])

/-- The bytes of a complete `.sql` chunk file (dump.py 279:
`"\n".join(parts).encode("utf-8")`). -/
def buildSqlChunk (copyData : List Nat) (tableName : List Nat)
    (columns : List (List Nat)) (s : DumpSettings) (schemaDdl : Option (List Nat))
    (indexDefs : List (List Nat × List Nat)) (now : List Nat)
    (isFirst isLast : Bool) : List Nat :=
  joinBytes [10]
    (buildSqlChunkParts copyData tableName columns s schemaDdl indexDefs now isFirst isLast)

/-! ## Chunk filenames (dump.py 35–40 and restore.py 69–74) -/

/-- The character for a decimal digit. -/
def digitChar (d : Nat) : Char := Char.ofNat (48 + d)

/-- Decimal digits of `n`, most significant first; `fuel` bounds the recursion
(any `fuel > n` gives the full representation). -/
def decDigits (fuel n : Nat) : List Char :=
  match fuel with
  | 0 => []
  | f + 1 =>
    if n < 10 then [digitChar n]
    else decDigits f (n / 10) ++ [digitChar (n % 10)]

/-- Python `f"{idx:06d}"`: the decimal representation of `idx`, left-padded
with zeros to at least six characters. -/
def pad6 (n : Nat) : List Char :=
  let ds := decDigits (n + 1) n
  List.replicate (6 - ds.length) '0' ++ ds

/-- `DumpManifest.chunk_filename` (dump.py 35–40): extension from the dump
mode and compression flag, index zero-padded to six digits. -/
def chunkFilenameDump (table : String) (dumpMode : String) (compressed : Bool)
    (idx : Nat) : String :=
  let ext := if dumpMode = "insert" then (if compressed then ".sql.gz" else ".sql")
             else (if compressed then ".csv.gz" else ".csv")
  table ++ "_chunk_" ++ String.mk (pad6 idx) ++ ext

/-- The chunk filename the restore pipeline resolves (restore.py 69–74). -/
def chunkFilenameRestore (table : String) (dumpMode : String) (compressed : Bool)
    (idx : Nat) : String :=
  let ext := if dumpMode = "insert" then (if compressed then ".sql.gz" else ".sql")
             else (if compressed then ".csv.gz" else ".csv")
  table ++ "_chunk_" ++ String.mk (pad6 idx) ++ ext

/-! ## The dump manifest and its serialization (dump.py 17–40, 327–347) -/

/-- The `DumpManifest` dataclass (dump.py 17–33), fields in declaration
order. -/
structure DumpManifest where
  connectionName : String
  database : String
  table : String
  schema : String
  columns : List String
  pkColumns : List String
  chunkRows : Nat
  totalRows : Nat
  chunksCompleted : Nat
  chunksTotal : Nat
  startedAt : String
  finishedAt : Option String
  compressed : Bool
  dumpMode : String
  hasSchema : Bool
deriving DecidableEq, Repr

/-- JSON escaping of one character as Python `json.dumps` performs it
(`ensure_ascii=True`): the two-character escapes for `"`, `\`, and the
control characters BS, FF, LF, CR, TAB; `\uXXXX` (with surrogate pairs
above U+FFFF) for other control and all non-ASCII characters. -/
def jsonEscChar (c : Char) : List Nat :=
  let n := c.toNat
  if n = 34 then [92, 34]
  else if n = 92 then [92, 92]
  else if n = 8 then [92, 98]
  else if n = 12 then [92, 102]
  else if n = 10 then [92, 110]
  else if n = 13 then [92, 114]
  else if n = 9 then [92, 116]
  else if 32 ≤ n ∧ n < 127 then [n]
  else if n < 65536 then hexEsc n
  else hexEsc (55296 + (n - 65536) / 1024) ++ hexEsc (56320 + (n - 65536) % 1024)
where
  /-- One lowercase hex digit. -/
  hexDigit (d : Nat) : Nat := if d < 10 then 48 + d else 87 + d
  /-- `\uXXXX` for a single code unit. -/
  hexEsc (m : Nat) : List Nat :=
    [92, 117, hexDigit (m / 4096 % 16), hexDigit (m / 256 % 16),
     hexDigit (m / 16 % 16), hexDigit (m % 16)]

/-- A JSON string literal for `s`, as Python `json.dumps` renders it. -/
def jsonStr (s : String) : List Nat :=
  [34] ++ s.data.flatMap jsonEscChar ++ [34]

/-- A JSON number for a count field. -/
def jsonNat (n : Nat) : List Nat :=
  (decDigits (n + 1) n).map Char.toNat

/-- A JSON boolean. -/
def jsonBool (b : Bool) : List Nat :=
  strBytes (if b then "true" else "false")

/-- A JSON list of strings at nesting depth 1, as `json.dumps(…, indent=2)`
renders it: `[]` when empty, otherwise one element per line indented by
four spaces with the closing bracket indented by two. -/
def jsonStrList (xs : List String) : List Nat :=
  if xs = [] then strBytes "[]"
  else
    strBytes "[\n" ++
      joinBytes (strBytes ",\n") (xs.map (fun x => strBytes "    " ++ jsonStr x)) ++
      strBytes "\n  ]"

/-- A JSON `null`-or-string for the optional `finished_at` field. -/
def jsonOptStr : Option String → List Nat
  | none => strBytes "null"
  | some s => jsonStr s

/-- One `"key": value` line of the serialized manifest, indented by two
spaces. -/
def jsonKV (k : String) (v : List Nat) : List Nat :=
  strBytes ("  \x22" ++ k ++ "\x22: ") ++ v

/-- The fifteen `"key": value` lines of `json.dumps(asdict(manifest), indent=2)`,
in dataclass field order. -/
def manifestLines (m : DumpManifest) : List (List Nat) :=
  [jsonKV "connection_name" (jsonStr m.connectionName),
   jsonKV "database" (jsonStr m.database),
   jsonKV "table" (jsonStr m.table),
   jsonKV "schema" (jsonStr m.schema),
   jsonKV "columns" (jsonStrList m.columns),
   jsonKV "pk_columns" (jsonStrList m.pkColumns),
   jsonKV "chunk_rows" (jsonNat m.chunkRows),
   jsonKV "total_rows" (jsonNat m.totalRows),
   jsonKV "chunks_completed" (jsonNat m.chunksCompleted),
   jsonKV "chunks_total" (jsonNat m.chunksTotal),
   jsonKV "started_at" (jsonStr m.startedAt),
   jsonKV "finished_at" (jsonOptStr m.finishedAt),
   jsonKV "compressed" (jsonBool m.compressed),
   jsonKV "dump_mode" (jsonStr m.dumpMode),
   jsonKV "has_schema" (jsonBool m.hasSchema)]

/-- `json.dumps(asdict(manifest), indent=2)`: the whole document,
pretty-indented. -/
def serializeManifest (m : DumpManifest) : List Nat :=
  strBytes "\x7b\n" ++ joinBytes (strBytes ",\n") (manifestLines m) ++ strBytes "\n\x7d"

/-- A filesystem operation performed by the manifest store. -/
inductive FsOp where
  | write (path : String) (contents : List Nat)
  | rename (src dst : String)
deriving DecidableEq, Repr

/-- `_write_manifest` (dump.py 346–347): the sequence of filesystem
operations it performs — a single `Path.write_text` of the serialized
manifest straight to the destination path. -/
def writeManifestOps (path : String) (m : DumpManifest) : List FsOp :=
  [FsOp.write path (serializeManifest m)]

/-- Claim-side predicate: the operation sequence serializes to a temporary
file and then atomically renames it over the destination. -/
def AtomicTempRename (path : String) (ops : List FsOp) : Prop :=
  ∃ tmp contents, tmp ≠ path ∧ ops = [FsOp.write tmp contents, FsOp.rename tmp path]

/-! ## The dump execution loop as a trace (dump.py 99–192)

The loop is modelled by the sequence of chunk-file writes and manifest
writes it performs.  The process-global interrupt flag is modelled by an
optional threshold `iopt`: `some j` means the flag reads true from the
loop check for chunk `j` onwards (`none`: never interrupted). -/

/-- The progress fields of a manifest write observed on disk. -/
structure MState where
  totalRows : Nat
  completed : Nat
  total : Nat
  finished : Bool
deriving DecidableEq, Repr

/-- One operation of the dump pipeline's write trace. -/
inductive DumpOp where
  | writeChunk (idx : Nat)
  | writeManifest (m : MState)
deriving DecidableEq, Repr

/-- `chunks_total = (total_rows + chunk_rows - 1) // chunk_rows`
(dump.py 116). -/
def chunksTotalOf (totalRows chunkRows : Nat) : Nat :=
  (totalRows + chunkRows - 1) / chunkRows

/-- `true` while the interrupt flag is still clear after `n` loop checks. -/
def interruptClear (iopt : Option Nat) (n : Nat) : Bool :=
  match iopt with
  | none => true
  | some j => n < j

/-- The first chunk index at which the dump loop stops: the chunk count, or
the interrupt point if that comes first. -/
def dumpStop (iopt : Option Nat) (total : Nat) : Nat :=
  match iopt with
  | none => total
  | some j => min total j

/-- The body of `while chunk_idx < chunks_total and not interrupted`
(dump.py 130–172): each iteration writes the chunk file for `idx` and then
the manifest with `chunks_completed = idx + 1`.  `remaining` counts the
iterations left (`stop - idx`). -/
def dumpLoopGo (totalRows total : Nat) : (remaining idx : Nat) → List DumpOp
  | 0, _ => []
  | r + 1, idx =>
    DumpOp.writeChunk idx ::
    DumpOp.writeManifest ⟨totalRows, idx + 1, total, false⟩ ::
    dumpLoopGo totalRows total r (idx + 1)

/-- The write trace of `dump_table` (dump.py 99–192) after the row count:
an empty table writes a single finished manifest with `chunks_total = 0`
and no chunk files (dump.py 107–113); otherwise the loop runs from
`startChunk`, and the finished manifest is written afterwards exactly when
the interrupt flag is still clear (dump.py 178–180). -/
def dumpOps (iopt : Option Nat) (totalRows chunkRows startChunk : Nat) : List DumpOp :=
  if totalRows = 0 then [DumpOp.writeManifest ⟨0, 0, 0, true⟩]
  else
    let total := chunksTotalOf totalRows chunkRows
    let stop := dumpStop iopt total
    dumpLoopGo totalRows total (stop - startChunk) startChunk ++
      (if interruptClear iopt total then
        [DumpOp.writeManifest ⟨totalRows, max startChunk stop, total, true⟩]
       else [])

/-- The per-write invariant of claim C6, checked against the operations
`prior` that precede the write and the chunk files `initial` already on
disk when the run started: a manifest write must satisfy
`chunks_completed ≤ chunks_total`, and the chunk file for
`chunks_completed - 1` must exist. -/
def manifestOkAt (initial : Nat → Bool) (prior : List DumpOp) : DumpOp → Bool
  | .writeManifest m =>
    decide (m.completed ≤ m.total) &&
    (decide (m.completed = 0) || initial (m.completed - 1) ||
      decide (DumpOp.writeChunk (m.completed - 1) ∈ prior))
  | .writeChunk _ => true

/-- Every manifest write in the trace satisfies the C6 invariant with
respect to what was written before it. -/
def ManifestInv (initial : Nat → Bool) (ops : List DumpOp) : Prop :=
  ∀ k (h : k < ops.length), manifestOkAt initial (ops.take k) (ops.get ⟨k, h⟩) = true

/-! ## The restore pipeline as a trace (restore.py 14–136)

Database effects, file reads and state writes are modelled as events.
Parameters stand for the environment: `fe idx` tells whether the chunk
file for `idx` exists, `oc idx attempt` whether applying chunk `idx`
succeeds on its `attempt`-th try, `schemaFileExists` whether `schema.sql`
is present, `truncOk` whether the `TRUNCATE` succeeds, and `droppedAny`
whether `_drop_non_pk_indexes` found any index to drop. -/

/-- One observable event of the restore pipeline. -/
inductive REvent where
  | logEmpty
  | preConnect
  | preDropTable
  | preRunSchema
  | preWarnNoSchema
  | preTruncate
  | preClose
  | dropIndexes
  | paused (idx : Nat)
  | missingFile (idx : Nat)
  | readChunk (idx : Nat)
  | connect
  | applyChunk (idx : Nat) (ok : Bool)
  | commit
  | rollback
  | closeConn
  | sleep (seconds : Nat)
  | writeState (chunksRestored : Nat)
  | raiseError
  | rebuildIndexes
deriving DecidableEq, Repr

/-- How the restore chunk loop ended. -/
inductive LoopExit where
  | normal
  | returned
  | raised
  | interruptedBreak
deriving DecidableEq, Repr

/-- The pre-restore hooks (`_pre_restore`, restore.py 139–168): one
connection; `DROP TABLE` + commit if `drop_on_restore`; `schema.sql`
executed + commit if `recreate_schema` and the manifest has a schema
(warning if the file is missing); `TRUNCATE` + commit if
`truncate_before_restore` and not `drop_on_restore` (rollback if the
`TRUNCATE` fails); close. -/
def preRestoreEvents (s : DumpSettings) (hasSchema schemaFileExists truncOk : Bool) :
    List REvent :=
  [REvent.preConnect] ++
  (if s.dropOnRestore then [REvent.preDropTable, REvent.commit] else []) ++
  (if s.recreateSchema ∧ hasSchema then
    (if schemaFileExists then [REvent.preRunSchema, REvent.commit]
     else [REvent.preWarnNoSchema])
   else []) ++
  (if s.truncateBeforeRestore ∧ ¬ s.dropOnRestore then
    (if truncOk then [REvent.preTruncate, REvent.commit]
     else [REvent.preTruncate, REvent.rollback])
   else []) ++
  [REvent.preClose]

/-- restore.py 100–103: the per-chunk commit.  The source tests
`use_transactions` but commits in both branches. -/
def commitEvents (s : DumpSettings) : List REvent :=
  if s.useTransactions then [REvent.commit] else [REvent.commit]

/-- The retry loop `for attempt in range(1, max_retries + 1)`
(restore.py 89–120) applied to chunk `chunkIdx`.  Each attempt opens a
fresh connection; on success the chunk is committed and the connection
closed; on failure the connection is rolled back and closed, then either
the loop sleeps `retry_backoff ** attempt` seconds and retries, or — on
the final attempt — persists `chunks_restored = chunkIdx` and re-raises.
Returns the events and whether the chunk was applied. -/
def applyAttempts (s : DumpSettings) (chunkIdx : Nat) (oc : Nat → Bool) :
    (attempt remaining : Nat) → List REvent × Bool
  | _, 0 => ([], true)
  | attempt, r + 1 =>
    if oc attempt then
      ([REvent.connect, REvent.applyChunk chunkIdx true] ++ commitEvents s ++
        [REvent.closeConn], true)
    else
      let seg := [REvent.connect, REvent.applyChunk chunkIdx false,
                  REvent.rollback, REvent.closeConn]
      if r = 0 then
        (seg ++ [REvent.writeState chunkIdx, REvent.raiseError], false)
      else
        let rest := applyAttempts s chunkIdx oc (attempt + 1) r
        (seg ++ [REvent.sleep (s.retryBackoff ^ attempt)] ++ rest.1, rest.2)

/-- The chunk loop `for chunk_idx in range(start_chunk, chunks_total)`
(restore.py 64–126): each iteration checks the interrupt flag, the chunk
file's existence, reads it, applies it with retry, and persists
`chunks_restored = chunk_idx + 1`. -/
def restoreChunkLoop (s : DumpSettings) (fe : Nat → Bool) (oc : Nat → Nat → Bool)
    (iopt : Option Nat) : (remaining idx : Nat) → List REvent × LoopExit
  | 0, _ => ([], LoopExit.normal)
  | r + 1, idx =>
    if ¬ interruptClear iopt idx then ([REvent.paused idx], LoopExit.interruptedBreak)
    else if ¬ fe idx then ([REvent.missingFile idx], LoopExit.returned)
    else
      let att := applyAttempts s idx (oc idx) 1 s.maxRetries
      if att.2 then
        let rest := restoreChunkLoop s fe oc iopt r (idx + 1)
        (REvent.readChunk idx :: att.1 ++ [REvent.writeState (idx + 1)] ++ rest.1, rest.2)
      else (REvent.readChunk idx :: att.1, LoopExit.raised)

/-- The manifest fields `restore_table` reads that drive the control flow. -/
structure RManifest where
  totalRows : Nat
  chunksTotal : Nat
  hasSchema : Bool
deriving DecidableEq, Repr

/-- The part of `restore_table` after the start chunk is known
(restore.py 50–130): pre-restore hooks and index dropping on a fresh start,
the chunk loop, and the index rebuild when indexes were dropped and the run
was neither aborted nor interrupted. -/
def restoreBody (m : RManifest) (s : DumpSettings)
    (schemaFileExists truncOk droppedAny : Bool) (fe : Nat → Bool)
    (oc : Nat → Nat → Bool) (iopt : Option Nat) (start : Nat) : List REvent :=
  (if start = 0 then preRestoreEvents s m.hasSchema schemaFileExists truncOk else []) ++
  (if s.disableIndexesOnRestore ∧ start = 0 then [REvent.dropIndexes] else []) ++
  (let loop := restoreChunkLoop s fe oc iopt (m.chunksTotal - start) start
   loop.1 ++
     (if s.disableIndexesOnRestore ∧ start = 0 ∧ droppedAny ∧
         loop.2 = LoopExit.normal ∧ interruptClear iopt m.chunksTotal then
       [REvent.rebuildIndexes]
      else []))

/-- The event trace of `restore_table` (restore.py 14–136), given the
manifest, the optional `restore_state.json` contents, the settings and the
environment: an empty dump is reported and nothing else happens
(restore.py 35–37); an already-complete state is skipped (restore.py 44–46);
otherwise the body runs from the resumed chunk. -/
def restoreOps (m : RManifest) (stateOpt : Option Nat) (s : DumpSettings)
    (schemaFileExists truncOk droppedAny : Bool) (fe : Nat → Bool)
    (oc : Nat → Nat → Bool) (iopt : Option Nat) : List REvent :=
  if m.totalRows = 0 then [REvent.logEmpty]
  else
    match stateOpt with
    | some st =>
      if m.chunksTotal ≤ st then []
      else restoreBody m s schemaFileExists truncOk droppedAny fe oc iopt st
    | none => restoreBody m s schemaFileExists truncOk droppedAny fe oc iopt 0

/-! ## Helper lemmas: decimal digits and padded indices -/

/-- The numeric value of a digit string, most significant first. -/
def decVal (cs : List Char) : Nat :=
  cs.foldl (fun acc c => acc * 10 + (c.toNat - 48)) 0

theorem digitChar_toNat (d : Nat) (h : d < 10) : (digitChar d).toNat = 48 + d := by
  have hv : (48 + d).isValidChar := Or.inl (by omega)
  unfold digitChar Char.ofNat
  rw [dif_pos hv]
  rfl

theorem decVal_decDigits : ∀ (fuel n : Nat), n < fuel → decVal (decDigits fuel n) = n := by
  intro fuel
  induction fuel with
  | zero => intro n h; omega
  | succ f ih =>
    intro n h
    unfold decDigits
    by_cases h10 : n < 10
    · simp [h10, decVal, digitChar_toNat n h10]
    · have hdiv : n / 10 < n := Nat.div_lt_self (by omega) (by omega)
      have hfuel : n / 10 < f := by omega
      simp only [h10, if_false, decVal, List.foldl_append]
      have := ih (n / 10) hfuel
      unfold decVal at this
      simp only [this, List.foldl, digitChar_toNat (n % 10) (Nat.mod_lt n (by omega))]
      omega

theorem decVal_replicate_zero (k : Nat) (l : List Char) :
    decVal (List.replicate k '0' ++ l) = decVal l := by
  induction k with
  | zero => simp
  | succ m ih =>
    have : List.replicate (m + 1) '0' ++ l = '0' :: (List.replicate m '0' ++ l) := by
      simp [List.replicate_succ]
    rw [this]
    unfold decVal at *
    simpa using ih

theorem pad6_inj {i j : Nat} (h : pad6 i = pad6 j) : i = j := by
  have hv : decVal (pad6 i) = decVal (pad6 j) := by rw [h]
  unfold pad6 at hv
  rw [decVal_replicate_zero, decVal_replicate_zero,
    decVal_decDigits _ _ (Nat.lt_succ_self i), decVal_decDigits _ _ (Nat.lt_succ_self j)] at hv
  exact hv

/-! ## Claim C10 -/

/-- Claim C10: for every table name, dump mode, compression flag and chunk
index, the filename the dump pipeline writes (`DumpManifest.chunk_filename`,
dump.py 35–40) is character-for-character the filename the restore pipeline
resolves for the same parameters (restore.py 69–74), and distinct chunk
indices always yield distinct filenames. -/
theorem dump_restore_chunk_filenames_agree :
    (∀ (table mode : String) (compressed : Bool) (idx : Nat),
      chunkFilenameDump table mode compressed idx =
        chunkFilenameRestore table mode compressed idx) ∧
    (∀ (table mode : String) (compressed : Bool) (i j : Nat), i ≠ j →
      chunkFilenameDump table mode compressed i ≠ chunkFilenameDump table mode compressed j) := by
  constructor
  · intro table mode compressed idx
    rfl
  · intro table mode compressed i j hne heq
    apply hne
    apply pad6_inj
    have hdata := congrArg String.data heq
    simp only [chunkFilenameDump, String.data_append] at hdata
    have h1 := List.append_cancel_right hdata
    exact List.append_cancel_left h1

/-- Witness for C10 at concrete inputs. -/
theorem dump_restore_chunk_filenames_agree_witness :
    chunkFilenameDump "t" "copy" true 0 = chunkFilenameRestore "t" "copy" true 0 ∧
    (0 ≠ 1 ∧
      chunkFilenameDump "t" "copy" true 0 ≠ chunkFilenameDump "t" "copy" true 1) :=
  ⟨dump_restore_chunk_filenames_agree.1 "t" "copy" true 0,
   by decide,
   dump_restore_chunk_filenames_agree.2 "t" "copy" true 0 1 (by decide)⟩

/-! ## Claim C2 -/

theorem joinBytes_eq_of_mem (sep x : List Nat) :
    ∀ l : List (List Nat), x ∈ l → ∃ u v, joinBytes sep l = u ++ (x ++ v) := by
  intro l
  induction l with
  | nil => intro h; cases h
  | cons y t ih =>
    intro hmem
    rcases List.mem_cons.mp hmem with hx | hx
    · subst hx
      cases t with
      | nil => exact ⟨[], [], by simp [joinBytes]⟩
      | cons z t' => exact ⟨[], sep ++ joinBytes sep (z :: t'), by simp [joinBytes]⟩
    · cases t with
      | nil => cases hx
      | cons z t' =>
        obtain ⟨u, v, hu⟩ := ih hx
        exact ⟨y ++ sep ++ u, v, by simp [joinBytes, hu]⟩

/-- Counterexample to claim C2: `_write_manifest` (dump.py 346–347) performs
a single direct `write_text` to the destination — its operation sequence is
never a write-to-temporary followed by an atomic rename. -/
theorem manifest_write_not_temp_rename :
    ¬ AtomicTempRename "manifest.json"
      (writeManifestOps "manifest.json"
        ⟨"local", "db", "t", "public", ["id", "s"], ["id"], 2, 3, 0, 2,
         "2024-01-01T00:00:00", none, true, "copy", true⟩) := by
  rintro ⟨tmp, contents, hne, heq⟩
  simp [writeManifestOps] at heq

/-- Claim C2 (amended): every write of the dump manifest serializes the whole
document — all fifteen `"key": value` lines, pretty-indented — but writes it
directly to the destination path in a single write call (dump.py 347); no
temporary file and no atomic rename are involved, so atomicity against a
concurrent reader is not guaranteed by the store itself. -/
theorem manifest_write_single_direct_write (path : String) (m : DumpManifest) :
    writeManifestOps path m = [FsOp.write path (serializeManifest m)] ∧
    ∀ line ∈ manifestLines m, line <:+: serializeManifest m := by
  refine ⟨rfl, ?_⟩
  intro line hline
  obtain ⟨u, v, hu⟩ := joinBytes_eq_of_mem (strBytes ",\n") line (manifestLines m) hline
  exact ⟨strBytes "\x7b\n" ++ u, v ++ strBytes "\n\x7d", by simp [serializeManifest, hu]⟩

/-- Witness for C2's amended statement at a concrete manifest. -/
theorem manifest_write_single_direct_write_witness :
    (writeManifestOps "manifest.json"
        ⟨"local", "db", "t", "public", ["id", "s"], ["id"], 2, 3, 0, 2,
         "2024-01-01T00:00:00", none, true, "copy", true⟩ =
      [FsOp.write "manifest.json"
        (serializeManifest
          ⟨"local", "db", "t", "public", ["id", "s"], ["id"], 2, 3, 0, 2,
           "2024-01-01T00:00:00", none, true, "copy", true⟩)]) ∧
    (jsonKV "table" (jsonStr "t") ∈ manifestLines
        ⟨"local", "db", "t", "public", ["id", "s"], ["id"], 2, 3, 0, 2,
         "2024-01-01T00:00:00", none, true, "copy", true⟩ ∧
      jsonKV "table" (jsonStr "t") <:+: serializeManifest
        ⟨"local", "db", "t", "public", ["id", "s"], ["id"], 2, 3, 0, 2,
         "2024-01-01T00:00:00", none, true, "copy", true⟩) :=
  ⟨(manifest_write_single_direct_write "manifest.json" _).1,
   by simp [manifestLines],
   (manifest_write_single_direct_write "manifest.json" _).2 _ (by simp [manifestLines])⟩

/-! ## Claim C7 -/

/-- Claim C7: for every manifest whose `total_rows` is 0, the restore is a
no-op that only reports an empty dump (restore.py 35–37): it neither
connects to the database, nor runs a pre-restore hook, nor applies a chunk,
nor writes `restore_state.json`. -/
theorem restore_empty_dump_is_noop (m : RManifest) (stateOpt : Option Nat)
    (s : DumpSettings) (schemaFileExists truncOk droppedAny : Bool)
    (fe : Nat → Bool) (oc : Nat → Nat → Bool) (iopt : Option Nat)
    (h : m.totalRows = 0) :
    restoreOps m stateOpt s schemaFileExists truncOk droppedAny fe oc iopt =
      [REvent.logEmpty] ∧
    REvent.connect ∉ restoreOps m stateOpt s schemaFileExists truncOk droppedAny fe oc iopt ∧
    REvent.preConnect ∉ restoreOps m stateOpt s schemaFileExists truncOk droppedAny fe oc iopt ∧
    (∀ i ok, REvent.applyChunk i ok ∉
      restoreOps m stateOpt s schemaFileExists truncOk droppedAny fe oc iopt) ∧
    (∀ n, REvent.writeState n ∉
      restoreOps m stateOpt s schemaFileExists truncOk droppedAny fe oc iopt) := by
  have htrace : restoreOps m stateOpt s schemaFileExists truncOk droppedAny fe oc iopt =
      [REvent.logEmpty] := by
    simp [restoreOps, h]
  refine ⟨htrace, ?_, ?_, ?_, ?_⟩ <;> simp [htrace]

/-- Witness for C7 at a concrete empty-dump manifest. -/
theorem restore_empty_dump_is_noop_witness :
    (RManifest.totalRows ⟨0, 0, false⟩ = 0) ∧
    (restoreOps ⟨0, 0, false⟩ none
        ⟨500000, true, "copy", true, 1000, true, true, false, false, false, 3, 2⟩
        false true false (fun _ => true) (fun _ _ => true) none = [REvent.logEmpty] ∧
      REvent.connect ∉ restoreOps ⟨0, 0, false⟩ none
        ⟨500000, true, "copy", true, 1000, true, true, false, false, false, 3, 2⟩
        false true false (fun _ => true) (fun _ _ => true) none ∧
      REvent.preConnect ∉ restoreOps ⟨0, 0, false⟩ none
        ⟨500000, true, "copy", true, 1000, true, true, false, false, false, 3, 2⟩
        false true false (fun _ => true) (fun _ _ => true) none ∧
      (∀ i ok, REvent.applyChunk i ok ∉ restoreOps ⟨0, 0, false⟩ none
        ⟨500000, true, "copy", true, 1000, true, true, false, false, false, 3, 2⟩
        false true false (fun _ => true) (fun _ _ => true) none) ∧
      (∀ n, REvent.writeState n ∉ restoreOps ⟨0, 0, false⟩ none
        ⟨500000, true, "copy", true, 1000, true, true, false, false, false, 3, 2⟩
        false true false (fun _ => true) (fun _ _ => true) none)) :=
  ⟨rfl, restore_empty_dump_is_noop _ _ _ _ _ _ _ _ _ rfl⟩

/-! ## Claim C9 -/

theorem commitEvents_eq (s : DumpSettings) : commitEvents s = [REvent.commit] := by
  unfold commitEvents
  exact ite_self _

theorem applyAttempts_useTx (s : DumpSettings) (b : Bool) (chunkIdx : Nat)
    (oc : Nat → Bool) :
    ∀ remaining attempt,
      applyAttempts { s with useTransactions := b } chunkIdx oc attempt remaining =
        applyAttempts s chunkIdx oc attempt remaining := by
  intro remaining
  induction remaining with
  | zero => intro attempt; rfl
  | succ r ih =>
    intro attempt
    simp only [applyAttempts, commitEvents_eq, ih]

theorem restoreChunkLoop_useTx (s : DumpSettings) (b : Bool) (fe : Nat → Bool)
    (oc : Nat → Nat → Bool) (iopt : Option Nat) :
    ∀ remaining idx,
      restoreChunkLoop { s with useTransactions := b } fe oc iopt remaining idx =
        restoreChunkLoop s fe oc iopt remaining idx := by
  intro remaining
  induction remaining with
  | zero => intro idx; rfl
  | succ r ih =>
    intro idx
    simp only [restoreChunkLoop, applyAttempts_useTx, ih]

/-- Claim C9: the restore pipeline's event trace does not depend on the
`use_transactions` setting — the source's two commit branches
(restore.py 100–103) are identical, so the restore commits after every
successfully applied chunk either way. -/
theorem restore_independent_of_use_transactions :
    (∀ (m : RManifest) (stateOpt : Option Nat) (s : DumpSettings) (b₁ b₂ : Bool)
       (schemaFileExists truncOk droppedAny : Bool) (fe : Nat → Bool)
       (oc : Nat → Nat → Bool) (iopt : Option Nat),
      restoreOps m stateOpt { s with useTransactions := b₁ }
          schemaFileExists truncOk droppedAny fe oc iopt =
        restoreOps m stateOpt { s with useTransactions := b₂ }
          schemaFileExists truncOk droppedAny fe oc iopt) ∧
    (∀ s : DumpSettings, commitEvents s = [REvent.commit]) := by
  constructor
  · have hbody : ∀ (m : RManifest) (s : DumpSettings) (b : Bool)
        (schemaFileExists truncOk droppedAny : Bool) (fe : Nat → Bool)
        (oc : Nat → Nat → Bool) (iopt : Option Nat) (start : Nat),
        restoreBody m { s with useTransactions := b }
            schemaFileExists truncOk droppedAny fe oc iopt start =
          restoreBody m s schemaFileExists truncOk droppedAny fe oc iopt start := by
      intro m s b schemaFileExists truncOk droppedAny fe oc iopt start
      simp only [restoreBody, restoreChunkLoop_useTx]
      rfl
    intro m stateOpt s b₁ b₂ schemaFileExists truncOk droppedAny fe oc iopt
    cases stateOpt with
    | none => simp only [restoreOps, hbody]
    | some st => simp only [restoreOps, hbody]
  · exact commitEvents_eq

/-! ## Claim C5 -/

theorem dumpLoopGo_manifest_total (tR total : Nat) :
    ∀ r idx m, DumpOp.writeManifest m ∈ dumpLoopGo tR total r idx → m.total = total := by
  intro r
  induction r with
  | zero => intro idx m h; cases h
  | succ n ih =>
    intro idx m h
    rcases List.mem_cons.mp h with h1 | h1
    · cases h1
    rcases List.mem_cons.mp h1 with h2 | h2
    · cases h2; rfl
    · exact ih (idx + 1) m h2

/-- Claim C5: for every dump, when `total_rows > 0` every manifest write
records `chunks_total = (total_rows + chunk_rows - 1) // chunk_rows`
(dump.py 116), which is exactly `ceil(total_rows / chunk_rows)` — the least
`n` with `total_rows ≤ n * chunk_rows`; when `total_rows = 0` the dump
writes a single finished manifest with `chunks_total = 0` and writes no
chunk files (dump.py 107–113). -/
theorem dump_chunks_total_is_ceiling (iopt : Option Nat) (t c startChunk : Nat)
    (hc : 1 ≤ c) :
    (0 < t →
      (∀ m : MState, DumpOp.writeManifest m ∈ dumpOps iopt t c startChunk →
        m.total = chunksTotalOf t c) ∧
      IsLeast {n | t ≤ n * c} (chunksTotalOf t c)) ∧
    (t = 0 →
      dumpOps iopt t c startChunk = [DumpOp.writeManifest ⟨0, 0, 0, true⟩] ∧
      ∀ i, DumpOp.writeChunk i ∉ dumpOps iopt t c startChunk) := by
  constructor
  · intro ht
    constructor
    · intro m hm
      have hne : ¬ t = 0 := by omega
      simp only [dumpOps, hne, if_false] at hm
      rcases List.mem_append.mp hm with h1 | h1
      · exact dumpLoopGo_manifest_total t (chunksTotalOf t c) _ _ m h1
      · rcases h2 : interruptClear iopt (chunksTotalOf t c) with _ | _
        · rw [h2] at h1; cases h1
        · rw [h2] at h1
          simp only [if_true] at h1
          rcases List.mem_cons.mp h1 with h3 | h3
          · cases h3; rfl
          · cases h3
    · constructor
      · show t ≤ chunksTotalOf t c * c
        have h1 : (t + c - 1) / c < chunksTotalOf t c + 1 := Nat.lt_succ_self _
        have h2 : t + c - 1 < (chunksTotalOf t c + 1) * c :=
          (Nat.div_lt_iff_lt_mul hc).mp h1
        have h3 : (chunksTotalOf t c + 1) * c = chunksTotalOf t c * c + c := by ring
        omega
      · intro n hn
        by_contra hlt
        push_neg at hlt
        have h1 : n + 1 ≤ (t + c - 1) / c := hlt
        have h2 : (n + 1) * c ≤ t + c - 1 := (Nat.le_div_iff_mul_le hc).mp h1
        have h3 : (n + 1) * c = n * c + c := by ring
        have h4 : t ≤ n * c := hn
        omega
  · intro ht
    subst ht
    refine ⟨by simp [dumpOps], ?_⟩
    intro i
    simp [dumpOps]

/-- Witness for C5 at `total_rows = 5`, `chunk_rows = 2` (and at an empty
table). -/
theorem dump_chunks_total_is_ceiling_witness :
    (1 ≤ 2 ∧
      ((0 < 5 →
        (∀ m : MState, DumpOp.writeManifest m ∈ dumpOps none 5 2 0 →
          m.total = chunksTotalOf 5 2) ∧
        IsLeast {n | 5 ≤ n * 2} (chunksTotalOf 5 2)) ∧
      (5 = 0 →
        dumpOps none 5 2 0 = [DumpOp.writeManifest ⟨0, 0, 0, true⟩] ∧
        ∀ i, DumpOp.writeChunk i ∉ dumpOps none 5 2 0))) ∧
    (1 ≤ 1 ∧
      ((0 < 0 →
        (∀ m : MState, DumpOp.writeManifest m ∈ dumpOps none 0 1 0 →
          m.total = chunksTotalOf 0 1) ∧
        IsLeast {n | 0 ≤ n * 1} (chunksTotalOf 0 1)) ∧
      (0 = 0 →
        dumpOps none 0 1 0 = [DumpOp.writeManifest ⟨0, 0, 0, true⟩] ∧
        ∀ i, DumpOp.writeChunk i ∉ dumpOps none 0 1 0))) :=
  ⟨⟨by decide, dump_chunks_total_is_ceiling none 5 2 0 (by decide)⟩,
   ⟨by decide, dump_chunks_total_is_ceiling none 0 1 0 (by decide)⟩⟩

/-! ## Claim C6 -/

/-- The C6 invariant stated relative to an explicit prefix of already
performed operations, in a form amenable to induction over the trace. -/
def ManifestInvFrom (initial : Nat → Bool) : List DumpOp → List DumpOp → Prop
  | _, [] => True
  | prior, op :: rest =>
    manifestOkAt initial prior op = true ∧
    ManifestInvFrom initial (prior ++ [op]) rest

theorem manifestInvFrom_get (initial : Nat → Bool) :
    ∀ (ops prior : List DumpOp), ManifestInvFrom initial prior ops →
      ∀ k (h : k < ops.length),
        manifestOkAt initial (prior ++ ops.take k) (ops.get ⟨k, h⟩) = true := by
  intro ops
  induction ops with
  | nil => intro prior _ k h; simp at h
  | cons op rest ih =>
    intro prior hinv k h
    cases k with
    | zero => simpa using hinv.1
    | succ n =>
      have := ih (prior ++ [op]) hinv.2 n (by simpa using h)
      simpa [List.append_assoc] using this

theorem manifestInvFrom_append (initial : Nat → Bool) :
    ∀ (xs ys prior : List DumpOp),
      ManifestInvFrom initial prior xs →
      ManifestInvFrom initial (prior ++ xs) ys →
      ManifestInvFrom initial prior (xs ++ ys) := by
  intro xs
  induction xs with
  | nil => intro ys prior _ h2; simpa using h2
  | cons x xs' ih =>
    intro ys prior h1 h2
    refine ⟨h1.1, ?_⟩
    exact ih ys (prior ++ [x]) h1.2 (by simpa [List.append_assoc] using h2)

theorem dumpLoopGo_inv (initial : Nat → Bool) (tR total : Nat) :
    ∀ (r idx : Nat) (prior : List DumpOp), idx + r ≤ total →
      ManifestInvFrom initial prior (dumpLoopGo tR total r idx) := by
  intro r
  induction r with
  | zero => intro idx prior _; exact trivial
  | succ n ih =>
    intro idx prior hle
    refine ⟨rfl, ?_, ?_⟩
    · have h1 : idx + 1 ≤ total := by omega
      simp [manifestOkAt, h1]
    · have := ih (idx + 1) (prior ++ [DumpOp.writeChunk idx] ++
        [DumpOp.writeManifest ⟨tR, idx + 1, total, false⟩]) (by omega)
      simpa [List.append_assoc] using this

theorem dumpLoopGo_writes_chunk (tR total : Nat) :
    ∀ (r idx i : Nat), idx ≤ i → i < idx + r →
      DumpOp.writeChunk i ∈ dumpLoopGo tR total r idx := by
  intro r
  induction r with
  | zero => intro idx i h1 h2; omega
  | succ n ih =>
    intro idx i h1 h2
    rcases Nat.eq_or_lt_of_le h1 with he | hlt
    · subst he; exact List.mem_cons_self _ _
    · exact List.mem_cons_of_mem _ (List.mem_cons_of_mem _ (ih (idx + 1) i hlt (by omega)))

/-- Claim C6 (amended): in the dump execution loop, the manifest update that
records chunk `i` as completed always follows the write of the chunk file
for `i`, and every manifest state written satisfies
`chunks_completed ≤ chunks_total`, with the chunk file for
`chunks_completed - 1` present (written this run or already on disk)
whenever `chunks_completed > 0` — provided the resumed start chunk does not
exceed the chunk count recomputed from the current row count. -/
theorem dump_finish_write_ok (initial : Nat → Bool) (t total start stop : Nat)
    (hstop : stop ≤ total) (hstart : start ≤ total)
    (hinit : ∀ i, i < start → initial i = true) :
    manifestOkAt initial (dumpLoopGo t total (stop - start) start)
      (DumpOp.writeManifest ⟨t, max start stop, total, true⟩) = true := by
  have hmax : max start stop ≤ total := by omega
  by_cases hz : max start stop = 0
  · simp [manifestOkAt, hz, hmax]
  · by_cases hss : stop ≤ start
    · have hms : max start stop = start := Nat.max_eq_left hss
      have hini : initial (max start stop - 1) = true := by
        rw [hms]; exact hinit _ (by omega)
      simp [manifestOkAt, hmax, hini]
    · push_neg at hss
      have hms : max start stop = stop := Nat.max_eq_right (Nat.le_of_lt hss)
      have hmem : DumpOp.writeChunk (max start stop - 1) ∈
          dumpLoopGo t total (stop - start) start := by
        rw [hms]
        exact dumpLoopGo_writes_chunk t total _ start _ (by omega) (by omega)
      simp [manifestOkAt, hmax, hmem]

theorem dump_manifest_writes_follow_chunks (iopt : Option Nat)
    (t c start : Nat) (initial : Nat → Bool) (hc : 1 ≤ c)
    (hinit : ∀ i, i < start → initial i = true)
    (hstart : start ≤ chunksTotalOf t c) :
    ManifestInv initial (dumpOps iopt t c start) := by
  have hstop : dumpStop iopt (chunksTotalOf t c) ≤ chunksTotalOf t c := by
    unfold dumpStop
    cases iopt with
    | none => exact Nat.le_refl _
    | some j => exact Nat.min_le_left _ _
  by_cases ht : t = 0
  · subst ht
    intro k h
    simp only [dumpOps, if_pos rfl] at h ⊢
    have hk : k = 0 := by
      have : k < 1 := by simpa using h
      omega
    subst hk
    rfl
  · have hbody : ManifestInvFrom initial [] (dumpOps iopt t c start) := by
      simp only [dumpOps, ht, if_false]
      apply manifestInvFrom_append
      · exact dumpLoopGo_inv initial t (chunksTotalOf t c) _ start [] (by omega)
      · rcases hic : interruptClear iopt (chunksTotalOf t c) with _ | _
        · exact trivial
        · refine ⟨?_, trivial⟩
          have := dump_finish_write_ok initial t (chunksTotalOf t c) start
            (dumpStop iopt (chunksTotalOf t c)) hstop hstart hinit
          simpa using this
    intro k h
    have := manifestInvFrom_get initial _ [] hbody k h
    simpa using this

/-- Witness for C6's amended statement: a resumed dump
(`start = 1 ≤ chunks_total = 2`) with chunk 0 already on disk. -/
theorem dump_manifest_writes_follow_chunks_witness :
    (1 ≤ 2 ∧ (∀ i, i < 1 → (fun j => decide (j < 1)) i = true) ∧
      1 ≤ chunksTotalOf 3 2) ∧
    ManifestInv (fun j => decide (j < 1)) (dumpOps none 3 2 1) :=
  ⟨⟨by decide, by decide, by decide⟩,
   dump_manifest_writes_follow_chunks none 3 2 1 (fun j => decide (j < 1))
     (by decide) (by decide) (by decide)⟩

/-- Counterexample to claim C6 as stated: resuming a dump at
`chunks_completed = 5` after the table has shrunk to a single row
(`chunk_rows = 1`, so the recomputed `chunks_total` is 1) makes the loop
body run zero times and the completion write record
`chunks_completed = 5 > chunks_total = 1`, violating the claimed
invariant. -/
theorem dump_manifest_inv_fails_on_shrunk_resume :
    ¬ ManifestInv (fun j => decide (j < 5)) (dumpOps none 1 1 5) := by
  intro h
  have h0 := h 0 (by decide)
  revert h0
  decide

/-! ## Claim C3 -/

theorem applyAttempts_all_fail (s : DumpSettings) (k : Nat) (oc : Nat → Bool)
    (hfail : ∀ a, oc a = false) :
    ∀ (r attempt : Nat), 1 ≤ r →
      applyAttempts s k oc attempt r =
        ((List.range' attempt (r - 1)).flatMap (fun a =>
          [REvent.connect, REvent.applyChunk k false, REvent.rollback, REvent.closeConn,
           REvent.sleep (s.retryBackoff ^ a)]) ++
         [REvent.connect, REvent.applyChunk k false, REvent.rollback, REvent.closeConn,
          REvent.writeState k, REvent.raiseError], false) := by
  intro r
  induction r with
  | zero => intro attempt h; omega
  | succ n ih =>
    intro attempt _
    cases n with
    | zero => simp [applyAttempts, hfail]
    | succ n' =>
      have hrec := ih (attempt + 1) (by omega)
      have hstep : applyAttempts s k oc attempt (n' + 1 + 1) =
          ([REvent.connect, REvent.applyChunk k false, REvent.rollback, REvent.closeConn] ++
            REvent.sleep (s.retryBackoff ^ attempt) ::
            (applyAttempts s k oc (attempt + 1) (n' + 1)).1,
           (applyAttempts s k oc (attempt + 1) (n' + 1)).2) := by
        simp [applyAttempts, hfail]
      rw [hstep, hrec]
      have hrange : List.range' attempt (n' + 1) = attempt :: List.range' (attempt + 1) n' :=
        List.range'_succ attempt n' 1
      simp [hrange, List.append_assoc]

theorem applyAttempts_first_success (s : DumpSettings) (i : Nat) (oc : Nat → Bool)
    (h : oc 1 = true) : ∀ r, 1 ≤ r →
    applyAttempts s i oc 1 r =
      ([REvent.connect, REvent.applyChunk i true, REvent.commit, REvent.closeConn],
       true) := by
  intro r hr
  cases r with
  | zero => omega
  | succ n => simp [applyAttempts, h, commitEvents_eq]

theorem restoreChunkLoop_run_to_failure (s : DumpSettings) (fe : Nat → Bool)
    (oc : Nat → Nat → Bool) (k : Nat)
    (hok : ∀ i, i < k → fe i = true ∧ oc i 1 = true)
    (hfe : fe k = true) (hfail : ∀ a, oc k a = false) (hr : 1 ≤ s.maxRetries) :
    ∀ (r k0 : Nat), k0 ≤ k → k < k0 + r →
      restoreChunkLoop s fe oc none r k0 =
        ((List.range' k0 (k - k0)).flatMap (fun i =>
          [REvent.readChunk i, REvent.connect, REvent.applyChunk i true, REvent.commit,
           REvent.closeConn, REvent.writeState (i + 1)]) ++
         REvent.readChunk k :: (applyAttempts s k (oc k) 1 s.maxRetries).1,
         LoopExit.raised) := by
  intro r
  induction r with
  | zero => intro k0 h1 h2; omega
  | succ n ih =>
    intro k0 h1 h2
    rcases Nat.eq_or_lt_of_le h1 with he | hlt
    · subst he
      have hatt : (applyAttempts s k0 (oc k0) 1 s.maxRetries).2 = false := by
        rw [applyAttempts_all_fail s k0 (oc k0) hfail s.maxRetries 1 hr]
      simp [restoreChunkLoop, interruptClear, hfe, hatt]
    · have hfei : fe k0 = true := (hok k0 hlt).1
      have hoci : oc k0 1 = true := (hok k0 hlt).2
      have hatt := applyAttempts_first_success s k0 (oc k0) hoci s.maxRetries hr
      have hrec := ih (k0 + 1) (by omega) (by omega)
      have hrange : List.range' k0 (k - k0) =
          k0 :: List.range' (k0 + 1) (k - (k0 + 1)) := by
        have hm : k - k0 = (k - (k0 + 1)) + 1 := by omega
        rw [hm, List.range'_succ]
      simp [restoreChunkLoop, interruptClear, hfei, hatt, hrec, hrange,
        List.append_assoc]

/-- Claim C3: applying a chunk makes up to `max_retries` attempts
(restore.py 89–120); between attempt `a` and `a + 1` it sleeps
`retry_backoff ** a` seconds; each attempt opens a fresh connection which
is rolled back and closed on exception; after the final failed attempt on
chunk `k` it persists `restore_state` with `chunks_restored = k` — the
count of successfully committed chunks — and re-raises, and a rerun from
that state starts again at chunk `k`. -/
theorem restore_retry_backoff_and_resume (m : RManifest) (s : DumpSettings)
    (schemaFileExists truncOk droppedAny : Bool) (fe : Nat → Bool)
    (oc : Nat → Nat → Bool) (k0 k : Nat)
    (hm : 0 < m.totalRows) (h0 : 0 < k0) (hk0 : k0 ≤ k) (hk : k < m.chunksTotal)
    (hok : ∀ i, i < k → fe i = true ∧ oc i 1 = true)
    (hfe : fe k = true) (hfail : ∀ a, oc k a = false) (hr : 1 ≤ s.maxRetries) :
    restoreOps m (some k0) s schemaFileExists truncOk droppedAny fe oc none =
      (List.range' k0 (k - k0)).flatMap (fun i =>
        [REvent.readChunk i, REvent.connect, REvent.applyChunk i true, REvent.commit,
         REvent.closeConn, REvent.writeState (i + 1)]) ++
      REvent.readChunk k ::
      ((List.range' 1 (s.maxRetries - 1)).flatMap (fun a =>
        [REvent.connect, REvent.applyChunk k false, REvent.rollback, REvent.closeConn,
         REvent.sleep (s.retryBackoff ^ a)]) ++
       [REvent.connect, REvent.applyChunk k false, REvent.rollback, REvent.closeConn,
        REvent.writeState k, REvent.raiseError]) ∧
    restoreOps m (some k) s schemaFileExists truncOk droppedAny fe oc none =
      REvent.readChunk k ::
      ((List.range' 1 (s.maxRetries - 1)).flatMap (fun a =>
        [REvent.connect, REvent.applyChunk k false, REvent.rollback, REvent.closeConn,
         REvent.sleep (s.retryBackoff ^ a)]) ++
       [REvent.connect, REvent.applyChunk k false, REvent.rollback, REvent.closeConn,
        REvent.writeState k, REvent.raiseError]) := by
  have hfailTrace := applyAttempts_all_fail s k (oc k) hfail s.maxRetries 1 hr
  constructor
  · have hloop := restoreChunkLoop_run_to_failure s fe oc k hok hfe hfail hr
      (m.chunksTotal - k0) k0 hk0 (by omega)
    have hne : ¬ m.totalRows = 0 := by omega
    have hlt : ¬ m.chunksTotal ≤ k0 := by omega
    have hstart : ¬ k0 = 0 := by omega
    simp [restoreOps, restoreBody, hne, hlt, hstart, hloop, hfailTrace,
      List.append_assoc]
  · have hloop := restoreChunkLoop_run_to_failure s fe oc k hok hfe hfail hr
      (m.chunksTotal - k) k (Nat.le_refl k) (by omega)
    have hne : ¬ m.totalRows = 0 := by omega
    have hlt : ¬ m.chunksTotal ≤ k := by omega
    have hstart : ¬ k = 0 := by omega
    simp [restoreOps, restoreBody, hne, hlt, hstart, hloop, hfailTrace,
      List.append_assoc]

/-- Witness for C3: three chunks, resume state 1, chunk 1 applies on its
first attempt, chunk 2 always fails, `max_retries = 3`,
`retry_backoff = 2`. -/
theorem restore_retry_backoff_and_resume_witness :
    (0 < (5 : Nat) ∧ 0 < (1 : Nat) ∧ (1 : Nat) ≤ 2 ∧ 2 < (3 : Nat) ∧
      (∀ i, i < 2 → (fun _ : Nat => true) i = true ∧
        (fun i a : Nat => decide (i < 2)) i 1 = true) ∧
      (fun _ : Nat => true) 2 = true ∧
      (∀ a, (fun i a : Nat => decide (i < 2)) 2 a = false) ∧
      (1 : Nat) ≤ (3 : Nat)) ∧
    (restoreOps ⟨5, 3, false⟩ (some 1)
        ⟨500000, true, "copy", true, 1000, true, true, false, false, false, 3, 2⟩
        false true false (fun _ => true) (fun i _ => decide (i < 2)) none =
      (List.range' 1 (2 - 1)).flatMap (fun i =>
        [REvent.readChunk i, REvent.connect, REvent.applyChunk i true, REvent.commit,
         REvent.closeConn, REvent.writeState (i + 1)]) ++
      REvent.readChunk 2 ::
      ((List.range' 1 (3 - 1)).flatMap (fun a =>
        [REvent.connect, REvent.applyChunk 2 false, REvent.rollback, REvent.closeConn,
         REvent.sleep (2 ^ a)]) ++
       [REvent.connect, REvent.applyChunk 2 false, REvent.rollback, REvent.closeConn,
        REvent.writeState 2, REvent.raiseError]) ∧
     restoreOps ⟨5, 3, false⟩ (some 2)
        ⟨500000, true, "copy", true, 1000, true, true, false, false, false, 3, 2⟩
        false true false (fun _ => true) (fun i _ => decide (i < 2)) none =
      REvent.readChunk 2 ::
      ((List.range' 1 (3 - 1)).flatMap (fun a =>
        [REvent.connect, REvent.applyChunk 2 false, REvent.rollback, REvent.closeConn,
         REvent.sleep (2 ^ a)]) ++
       [REvent.connect, REvent.applyChunk 2 false, REvent.rollback, REvent.closeConn,
        REvent.writeState 2, REvent.raiseError])) :=
  ⟨⟨by decide, by decide, by decide, by decide,
    by intro i h1; exact ⟨rfl, by simp [h1]⟩,
    rfl, fun a => rfl, by decide⟩,
   restore_retry_backoff_and_resume ⟨5, 3, false⟩
     ⟨500000, true, "copy", true, 1000, true, true, false, false, false, 3, 2⟩
     false true false (fun _ => true) (fun i _ => decide (i < 2)) 1 2
     (by decide) (by decide) (by decide) (by decide)
     (by intro i h1; exact ⟨rfl, by simp [h1]⟩)
     rfl (fun a => rfl) (by decide)⟩

/-! ## Claim C8 -/

theorem batchLoop_cons {α : Type} (bs : Nat) (r : α) (rest batch : List α) :
    batchLoop bs (r :: rest) batch =
      if bs ≤ (batch ++ [r]).length then (batch ++ [r]) :: batchLoop bs rest []
      else batchLoop bs rest (batch ++ [r]) := rfl

theorem batchLoop_spec {α : Type} (bs : Nat) (hbs : 1 ≤ bs) :
    ∀ (rows batch : List α), batch.length < bs →
      (batchLoop bs rows batch).flatten = batch ++ rows ∧
      (∀ b ∈ batchLoop bs rows batch, b ≠ [] ∧ b.length ≤ bs) ∧
      (∀ b ∈ (batchLoop bs rows batch).dropLast, b.length = bs) := by
  intro rows
  induction rows with
  | nil =>
    intro batch hlt
    by_cases hb : batch.isEmpty
    · have : batch = [] := List.isEmpty_iff.mp hb
      subst this
      simp [batchLoop]
    · refine ⟨by simp [batchLoop, hb], ?_, by simp [batchLoop, hb]⟩
      intro b hmem
      simp [batchLoop, hb] at hmem
      subst hmem
      exact ⟨fun he => hb (by simp [he]), Nat.le_of_lt hlt⟩
  | cons r rest ih =>
    intro batch hlt
    by_cases hflush : bs ≤ (batch ++ [r]).length
    · have hlen : (batch ++ [r]).length = bs := by
        simp only [List.length_append, List.length_singleton] at hflush ⊢
        omega
      obtain ⟨hj, hmem, hdrop⟩ := ih [] (by simpa using hbs)
      have hloop : batchLoop bs (r :: rest) batch =
          (batch ++ [r]) :: batchLoop bs rest [] := by
        rw [batchLoop_cons, if_pos hflush]
      refine ⟨?_, ?_, ?_⟩
      · rw [hloop]
        simp [hj, List.append_assoc]
      · intro b hb
        rw [hloop] at hb
        rcases List.mem_cons.mp hb with h1 | h1
        · subst h1
          refine ⟨?_, Nat.le_of_eq hlen⟩
          intro he
          rw [he] at hlen
          simp at hlen
          omega
        · exact hmem b h1
      · intro b hb
        rw [hloop] at hb
        cases hrest : batchLoop bs rest [] with
        | nil => rw [hrest] at hb; simp at hb
        | cons x t =>
          rw [hrest] at hb
          rw [List.dropLast_cons₂] at hb
          rcases List.mem_cons.mp hb with h1 | h1
          · subst h1; exact hlen
          · rw [hrest] at hdrop
            exact hdrop b h1
    · push_neg at hflush
      obtain ⟨hj, hmem, hdrop⟩ := ih (batch ++ [r]) hflush
      have hloop : batchLoop bs (r :: rest) batch =
          batchLoop bs rest (batch ++ [r]) := by
        rw [batchLoop_cons, if_neg (by omega)]
      rw [hloop]
      exact ⟨by simp [hj], hmem, hdrop⟩

/-- Claim C8: for every input buffer and every `insert_batch_size ≥ 1`,
`_copy_to_inserts` (dump.py 294–320) groups the decoded rows into
consecutive batches: concatenating the batches in order gives back exactly
the rendered input records (so the final partial batch is emitted and the
total row count across all emitted `INSERT` statements equals the number of
input records), every batch is non-empty with at most `insert_batch_size`
rows, and every batch except possibly the last has exactly
`insert_batch_size` rows. -/
theorem copy_to_inserts_batching (raw : List Nat) (bs : Nat) (hbs : 1 ≤ bs) :
    (insertBatches bs ((splitRecords raw).map rowTuple)).flatten =
      (splitRecords raw).map rowTuple ∧
    (∀ b ∈ insertBatches bs ((splitRecords raw).map rowTuple),
      b ≠ [] ∧ b.length ≤ bs) ∧
    (∀ b ∈ (insertBatches bs ((splitRecords raw).map rowTuple)).dropLast,
      b.length = bs) ∧
    ((insertBatches bs ((splitRecords raw).map rowTuple)).map List.length).sum =
      (splitRecords raw).length := by
  obtain ⟨hj, hmem, hdrop⟩ :=
    batchLoop_spec bs hbs ((splitRecords raw).map rowTuple) [] (by simpa using hbs)
  refine ⟨by simpa [insertBatches] using hj, by simpa [insertBatches] using hmem,
    by simpa [insertBatches] using hdrop, ?_⟩
  have hlen := congrArg List.length hj
  rw [List.length_flatten] at hlen
  simpa [insertBatches] using hlen

/-- Witness for C8 on a concrete three-record buffer with batch size 2. -/
theorem copy_to_inserts_batching_witness :
    (1 : Nat) ≤ 2 ∧
    ((insertBatches 2 ((splitRecords (strBytes "1\ta\n2\tb\n3\tc\n")).map rowTuple)).flatten =
      (splitRecords (strBytes "1\ta\n2\tb\n3\tc\n")).map rowTuple ∧
    (∀ b ∈ insertBatches 2 ((splitRecords (strBytes "1\ta\n2\tb\n3\tc\n")).map rowTuple),
      b ≠ [] ∧ b.length ≤ 2) ∧
    (∀ b ∈ (insertBatches 2
        ((splitRecords (strBytes "1\ta\n2\tb\n3\tc\n")).map rowTuple)).dropLast,
      b.length = 2) ∧
    ((insertBatches 2
        ((splitRecords (strBytes "1\ta\n2\tb\n3\tc\n")).map rowTuple)).map List.length).sum =
      (splitRecords (strBytes "1\ta\n2\tb\n3\tc\n")).length) :=
  ⟨by decide, copy_to_inserts_batching (strBytes "1\ta\n2\tb\n3\tc\n") 2 (by decide)⟩

/-! ## Claim C4 -/

/-- Claim C4 (amended): in insert mode the first chunk contains, in this
order before the data: (1) `DROP TABLE IF EXISTS "T" CASCADE;` exactly when
`drop_on_restore`; (2) the schema DDL exactly when
(`recreate_schema` or `drop_on_restore`) **and the schema DDL is available
(non-None and non-empty)**; (3) `TRUNCATE TABLE "T" CASCADE;` exactly when
`truncate_before_restore` and not `drop_on_restore`; (4) `DROP INDEX IF
EXISTS` for each non-PK index exactly when `disable_indexes_on_restore`;
and only the last chunk appends the saved `CREATE INDEX` statements, after
the `COMMIT;` when transactions are on (dump.py 206–279). -/
theorem build_sql_chunk_structure
    (copyData tableName : List Nat) (columns : List (List Nat)) (s : DumpSettings)
    (schemaDdl : Option (List Nat)) (indexDefs : List (List Nat × List Nat))
    (now : List Nat) (isFirst isLast : Bool) :
    buildSqlChunkParts copyData tableName columns s schemaDdl indexDefs now isFirst isLast =
      ([strBytes "-- dbtool dump: " ++ tableName, strBytes "-- generated: " ++ now] ++
       (if isFirst then [strBytes "-- chunk: 0 (first — includes preamble)"] else []) ++
       (if isLast then [strBytes "-- chunk: last (includes epilogue)"] else []) ++
       [[]]) ++
      (if isFirst then
        (if s.dropOnRestore then [dropTableStmt tableName, []] else []) ++
        (if (s.recreateSchema ∨ s.dropOnRestore) ∧ ddlTruthy schemaDdl then
          [(if s.recreateSchema then strBytes "-- schema"
            else strBytes "-- schema (required after DROP)"), schemaDdl.getD [], []]
         else []) ++
        (if s.truncateBeforeRestore ∧ ¬ s.dropOnRestore then
          [truncateStmt tableName, []] else []) ++
        (if s.disableIndexesOnRestore ∧ indexDefs ≠ [] then
          strBytes "-- drop indexes for faster bulk load" ::
            indexDefs.map (fun p => dropIndexStmt p.1) ++ [[]]
         else [])
       else []) ++
      (if s.useTransactions then [strBytes "BEGIN;", []] else []) ++
      [copyToInserts copyData tableName columns s.insertBatchSize] ++
      (if s.useTransactions then [strBytes "COMMIT;", []] else []) ++
      (if isLast ∧ s.disableIndexesOnRestore ∧ indexDefs ≠ [] then
        strBytes "-- rebuild indexes" ::
          indexDefs.map (fun p => p.2 ++ strBytes ";") ++ [[]]
       else []) := by
  cases hr : s.recreateSchema <;> cases hd : s.dropOnRestore <;>
    cases ht : ddlTruthy schemaDdl <;>
    simp [buildSqlChunkParts, hr, hd, ht]

/-- Counterexample to claim C4 as stated: with `drop_on_restore = true`,
`recreate_schema = false` and no schema DDL captured (`schema_ddl = None`,
possible whenever `dump_schema` is off or the DDL probe failed), the first
chunk contains the `DROP TABLE` statement but no schema DDL at all — the
claim's "the first chunk must contain the schema DDL anyway" fails because
the source also requires the DDL to be available (dump.py 242). -/
theorem build_sql_chunk_drop_without_ddl :
    (let s : DumpSettings := ⟨500000, true, "insert", true, 1000, true, true, true,
      false, false, 3, 2⟩
     (s.recreateSchema = true ∨ s.dropOnRestore = true) ∧
     dropTableStmt (strBytes "t") ∈
       buildSqlChunkParts [] (strBytes "t") [] s none [] (strBytes "T") true false ∧
     ¬ ∃ d, (none : Option (List Nat)) = some d ∧
       d ∈ buildSqlChunkParts [] (strBytes "t") [] s none [] (strBytes "T") true false) := by
  refine ⟨Or.inr rfl, by decide, ?_⟩
  rintro ⟨d, hd, _⟩
  cases hd

/-! ## Claim C1 -/

theorem replace2_cons_ne (a b : Nat) (r : List Nat) (x : Nat) (t : List Nat)
    (hx : x ≠ a) : replace2 a b r (x :: t) = x :: replace2 a b r t := by
  cases t with
  | nil => rfl
  | cons y t' => simp [replace2, hx]

theorem replace2_match (a b : Nat) (r : List Nat) (t : List Nat) :
    replace2 a b r (a :: b :: t) = r ++ replace2 a b r t := by
  simp [replace2]

theorem replace2_pair_ne (a b : Nat) (r : List Nat) (x y : Nat) (t : List Nat)
    (hy : y ≠ b) : replace2 a b r (x :: y :: t) = x :: replace2 a b r (y :: t) := by
  simp [replace2, hy]

/-- The field bytes after the first replace of dump.py 304 (`\\` → NUL). -/
def esc0 (b : Nat) : List Nat :=
  if b = 92 then [0]
  else if b = 10 then [92, 110]
  else if b = 13 then [92, 114]
  else if b = 9 then [92, 116]
  else [b]

/-- After the second replace (dump.py 305, `\n` → LF). -/
def esc1 (b : Nat) : List Nat :=
  if b = 92 then [0]
  else if b = 10 then [10]
  else if b = 13 then [92, 114]
  else if b = 9 then [92, 116]
  else [b]

/-- After the third replace (dump.py 306, `\r` → CR). -/
def esc2 (b : Nat) : List Nat :=
  if b = 92 then [0]
  else if b = 10 then [10]
  else if b = 13 then [13]
  else if b = 9 then [92, 116]
  else [b]

/-- After the fourth replace (dump.py 307, `\t` → TAB). -/
def esc3 (b : Nat) : List Nat :=
  if b = 92 then [0]
  else if b = 10 then [10]
  else if b = 13 then [13]
  else if b = 9 then [9]
  else [b]

theorem unescape_step1 (v : List Nat) :
    replace2 92 92 [0] (copyEscape v) = v.flatMap esc0 := by
  induction v with
  | nil => rfl
  | cons b t ih =>
    by_cases h92 : b = 92
    · subst h92
      have h1 : copyEscape (92 :: t) = 92 :: 92 :: copyEscape t := by
        simp [copyEscape, copyEscapeByte]
      rw [h1, replace2_match, ih]
      simp [esc0]
    · by_cases h10 : b = 10
      · subst h10
        have h1 : copyEscape (10 :: t) = 92 :: 110 :: copyEscape t := by
          simp [copyEscape, copyEscapeByte]
        rw [h1, replace2_pair_ne 92 92 [0] 92 110 _ (by omega),
          replace2_cons_ne 92 92 [0] 110 _ (by omega), ih]
        simp [esc0]
      · by_cases h13 : b = 13
        · subst h13
          have h1 : copyEscape (13 :: t) = 92 :: 114 :: copyEscape t := by
            simp [copyEscape, copyEscapeByte]
          rw [h1, replace2_pair_ne 92 92 [0] 92 114 _ (by omega),
            replace2_cons_ne 92 92 [0] 114 _ (by omega), ih]
          simp [esc0]
        · by_cases h9 : b = 9
          · subst h9
            have h1 : copyEscape (9 :: t) = 92 :: 116 :: copyEscape t := by
              simp [copyEscape, copyEscapeByte]
            rw [h1, replace2_pair_ne 92 92 [0] 92 116 _ (by omega),
              replace2_cons_ne 92 92 [0] 116 _ (by omega), ih]
            simp [esc0]
          · have h1 : copyEscape (b :: t) = b :: copyEscape t := by
              simp [copyEscape, copyEscapeByte, h92, h10, h13, h9]
            rw [h1, replace2_cons_ne 92 92 [0] b _ h92, ih]
            simp [esc0, h92, h10, h13, h9]

theorem unescape_step2 (v : List Nat) :
    replace2 92 110 [10] (v.flatMap esc0) = v.flatMap esc1 := by
  induction v with
  | nil => rfl
  | cons b t ih =>
    by_cases h92 : b = 92
    · subst h92
      have h1 : (92 :: t).flatMap esc0 = 0 :: t.flatMap esc0 := by simp [esc0]
      have h2 : (92 :: t).flatMap esc1 = 0 :: t.flatMap esc1 := by simp [esc1]
      rw [h1, h2, replace2_cons_ne 92 110 [10] 0 _ (by omega), ih]
    · by_cases h10 : b = 10
      · subst h10
        have h1 : (10 :: t).flatMap esc0 = 92 :: 110 :: t.flatMap esc0 := by simp [esc0]
        have h2 : (10 :: t).flatMap esc1 = 10 :: t.flatMap esc1 := by simp [esc1]
        rw [h1, h2, replace2_match, ih]
        rfl
      · by_cases h13 : b = 13
        · subst h13
          have h1 : (13 :: t).flatMap esc0 = 92 :: 114 :: t.flatMap esc0 := by simp [esc0]
          have h2 : (13 :: t).flatMap esc1 = 92 :: 114 :: t.flatMap esc1 := by simp [esc1]
          rw [h1, h2, replace2_pair_ne 92 110 [10] 92 114 _ (by omega),
            replace2_cons_ne 92 110 [10] 114 _ (by omega), ih]
        · by_cases h9 : b = 9
          · subst h9
            have h1 : (9 :: t).flatMap esc0 = 92 :: 116 :: t.flatMap esc0 := by simp [esc0]
            have h2 : (9 :: t).flatMap esc1 = 92 :: 116 :: t.flatMap esc1 := by simp [esc1]
            rw [h1, h2, replace2_pair_ne 92 110 [10] 92 116 _ (by omega),
              replace2_cons_ne 92 110 [10] 116 _ (by omega), ih]
          · have h1 : (b :: t).flatMap esc0 = b :: t.flatMap esc0 := by
              simp [esc0, h92, h10, h13, h9]
            have h2 : (b :: t).flatMap esc1 = b :: t.flatMap esc1 := by
              simp [esc1, h92, h10, h13, h9]
            rw [h1, h2, replace2_cons_ne 92 110 [10] b _ h92, ih]

theorem unescape_step3 (v : List Nat) :
    replace2 92 114 [13] (v.flatMap esc1) = v.flatMap esc2 := by
  induction v with
  | nil => rfl
  | cons b t ih =>
    by_cases h92 : b = 92
    · subst h92
      have h1 : (92 :: t).flatMap esc1 = 0 :: t.flatMap esc1 := by simp [esc1]
      have h2 : (92 :: t).flatMap esc2 = 0 :: t.flatMap esc2 := by simp [esc2]
      rw [h1, h2, replace2_cons_ne 92 114 [13] 0 _ (by omega), ih]
    · by_cases h10 : b = 10
      · subst h10
        have h1 : (10 :: t).flatMap esc1 = 10 :: t.flatMap esc1 := by simp [esc1]
        have h2 : (10 :: t).flatMap esc2 = 10 :: t.flatMap esc2 := by simp [esc2]
        rw [h1, h2, replace2_cons_ne 92 114 [13] 10 _ (by omega), ih]
      · by_cases h13 : b = 13
        · subst h13
          have h1 : (13 :: t).flatMap esc1 = 92 :: 114 :: t.flatMap esc1 := by simp [esc1]
          have h2 : (13 :: t).flatMap esc2 = 13 :: t.flatMap esc2 := by simp [esc2]
          rw [h1, h2, replace2_match, ih]
          rfl
        · by_cases h9 : b = 9
          · subst h9
            have h1 : (9 :: t).flatMap esc1 = 92 :: 116 :: t.flatMap esc1 := by simp [esc1]
            have h2 : (9 :: t).flatMap esc2 = 92 :: 116 :: t.flatMap esc2 := by simp [esc2]
            rw [h1, h2, replace2_pair_ne 92 114 [13] 92 116 _ (by omega),
              replace2_cons_ne 92 114 [13] 116 _ (by omega), ih]
          · have h1 : (b :: t).flatMap esc1 = b :: t.flatMap esc1 := by
              simp [esc1, h92, h10, h13, h9]
            have h2 : (b :: t).flatMap esc2 = b :: t.flatMap esc2 := by
              simp [esc2, h92, h10, h13, h9]
            rw [h1, h2, replace2_cons_ne 92 114 [13] b _ h92, ih]

theorem unescape_step4 (v : List Nat) :
    replace2 92 116 [9] (v.flatMap esc2) = v.flatMap esc3 := by
  induction v with
  | nil => rfl
  | cons b t ih =>
    by_cases h92 : b = 92
    · subst h92
      have h1 : (92 :: t).flatMap esc2 = 0 :: t.flatMap esc2 := by simp [esc2]
      have h2 : (92 :: t).flatMap esc3 = 0 :: t.flatMap esc3 := by simp [esc3]
      rw [h1, h2, replace2_cons_ne 92 116 [9] 0 _ (by omega), ih]
    · by_cases h10 : b = 10
      · subst h10
        have h1 : (10 :: t).flatMap esc2 = 10 :: t.flatMap esc2 := by simp [esc2]
        have h2 : (10 :: t).flatMap esc3 = 10 :: t.flatMap esc3 := by simp [esc3]
        rw [h1, h2, replace2_cons_ne 92 116 [9] 10 _ (by omega), ih]
      · by_cases h13 : b = 13
        · subst h13
          have h1 : (13 :: t).flatMap esc2 = 13 :: t.flatMap esc2 := by simp [esc2]
          have h2 : (13 :: t).flatMap esc3 = 13 :: t.flatMap esc3 := by simp [esc3]
          rw [h1, h2, replace2_cons_ne 92 116 [9] 13 _ (by omega), ih]
        · by_cases h9 : b = 9
          · subst h9
            have h1 : (9 :: t).flatMap esc2 = 92 :: 116 :: t.flatMap esc2 := by simp [esc2]
            have h2 : (9 :: t).flatMap esc3 = 9 :: t.flatMap esc3 := by simp [esc3]
            rw [h1, h2, replace2_match, ih]
            rfl
          · have h1 : (b :: t).flatMap esc2 = b :: t.flatMap esc2 := by
              simp [esc2, h92, h10, h13, h9]
            have h2 : (b :: t).flatMap esc3 = b :: t.flatMap esc3 := by
              simp [esc3, h92, h10, h13, h9]
            rw [h1, h2, replace2_cons_ne 92 116 [9] b _ h92, ih]

theorem unescape_step5 (v : List Nat) (h0 : 0 ∉ v) :
    replace1 0 [92] (v.flatMap esc3) = v := by
  induction v with
  | nil => rfl
  | cons b t ih =>
    have hb0 : b ≠ 0 := fun he => h0 (he ▸ List.mem_cons_self b t)
    have ht0 : 0 ∉ t := fun hm => h0 (List.mem_cons_of_mem b hm)
    by_cases h92 : b = 92
    · subst h92
      have h1 : (92 :: t).flatMap esc3 = 0 :: t.flatMap esc3 := by simp [esc3]
      rw [h1]
      show (if (0 : Nat) = 0 then [92] else [0]) ++ replace1 0 [92] (t.flatMap esc3) =
        92 :: t
      rw [if_pos rfl, ih ht0]
      rfl
    · have hesc : esc3 b = [b] := by
        unfold esc3
        rw [if_neg h92]
        by_cases h10 : b = 10
        · subst h10; rfl
        · rw [if_neg h10]
          by_cases h13 : b = 13
          · subst h13; rfl
          · rw [if_neg h13]
            by_cases h9 : b = 9
            · subst h9; rfl
            · rw [if_neg h9]
      have h1 : (b :: t).flatMap esc3 = b :: t.flatMap esc3 := by
        simp [hesc]
      rw [h1]
      show (if b = 0 then [92] else [b]) ++ replace1 0 [92] (t.flatMap esc3) = b :: t
      rw [if_neg hb0, ih ht0]
      rfl

/-- Reversing the copy escapes of an escaped field recovers the original
value, for every field value free of NUL bytes. -/
theorem unescape_copyEscape (v : List Nat) (h0 : 0 ∉ v) :
    unescapeField (copyEscape v) = v := by
  unfold unescapeField
  rw [unescape_step1, unescape_step2, unescape_step3, unescape_step4,
    unescape_step5 v h0]

theorem undouble_double (v : List Nat) :
    replace2 39 39 [39] (replace1 39 [39, 39] v) = v := by
  induction v with
  | nil => rfl
  | cons b t ih =>
    by_cases hb : b = 39
    · subst hb
      simp only [replace1, if_pos rfl]
      show replace2 39 39 [39] (39 :: 39 :: replace1 39 [39, 39] t) = 39 :: t
      rw [replace2_match, ih]
      rfl
    · simp only [replace1, if_neg hb]
      show replace2 39 39 [39] (b :: replace1 39 [39, 39] t) = b :: t
      rw [replace2_cons_ne 39 39 [39] b _ hb, ih]

theorem parse_quote (v : List Nat) :
    parseSqlLiteral ([39] ++ replace1 39 [39, 39] v ++ [39]) = some v := by
  show parseSqlLiteral (39 :: (replace1 39 [39, 39] v ++ [39])) = some v
  simp [parseSqlLiteral, List.getLast?_concat, List.dropLast_concat, undouble_double v]

theorem copyEscape_ne_nullField (v : List Nat) : copyEscape v ≠ [92, 78] := by
  cases v with
  | nil => simp [copyEscape]
  | cons b t =>
    intro h
    by_cases h92 : b = 92
    · subst h92; simp [copyEscape, copyEscapeByte] at h
    · by_cases h10 : b = 10
      · subst h10; simp [copyEscape, copyEscapeByte] at h
      · by_cases h13 : b = 13
        · subst h13; simp [copyEscape, copyEscapeByte] at h
        · by_cases h9 : b = 9
          · subst h9; simp [copyEscape, copyEscapeByte] at h
          · simp [copyEscape, copyEscapeByte, h92, h10, h13, h9] at h

/-- Claim C1 (amended): `_copy_to_inserts` maps every COPY-escaped field back
to its original value — the literal two-byte field `\N` becomes the SQL
keyword `NULL`, and every other field has its copy escapes reversed and is
emitted as a single-quoted SQL literal with embedded quotes doubled, so
that parsing the emitted literal recovers exactly the original field
value — for every field value that is valid UTF-8 **and contains no NUL
byte** (dump.py 300–311 uses NUL as the sentinel of its replace chain, and
PostgreSQL text values cannot contain NUL). -/
theorem copy_insert_field_roundtrip :
    (convertField [92, 78] = strBytes "NULL") ∧
    ∀ v : List Nat, Utf8Valid v → 0 ∉ v →
      parseSqlLiteral (convertField (copyEscape v)) = some v := by
  refine ⟨rfl, ?_⟩
  intro v hvalid h0
  rw [convertField, if_neg (copyEscape_ne_nullField v), unescape_copyEscape v h0,
    show utf8Fix v = v from hvalid]
  exact parse_quote v

/-- Witness for C1 on the spec's example field `O'Reilly\nline2`. -/
theorem copy_insert_field_roundtrip_witness :
    (Utf8Valid (strBytes "O'Reilly\nline2") ∧ (0 : Nat) ∉ strBytes "O'Reilly\nline2") ∧
    parseSqlLiteral (convertField (copyEscape (strBytes "O'Reilly\nline2"))) =
      some (strBytes "O'Reilly\nline2") :=
  ⟨⟨by decide, by decide⟩,
   copy_insert_field_roundtrip.2 (strBytes "O'Reilly\nline2") (by decide) (by decide)⟩

/-- Counterexample to claim C1 as stated: the single-byte field value NUL
(`\x00`) is valid UTF-8, yet the converter's sentinel trick turns it into a
backslash — the emitted literal parses to `[92]`, not `[0]`. -/
theorem copy_insert_field_nul_corrupted :
    Utf8Valid [0] ∧
    parseSqlLiteral (convertField (copyEscape [0])) = some [92] ∧
    parseSqlLiteral (convertField (copyEscape [0])) ≠ some [0] :=
  ⟨by decide, by decide, by decide⟩

end DbTool
